import Mathlib

/-!
Verification of the reference-resolution core of an OpenAPI 3 document model.

Source files embedded:
  * src/path.rs      — `Path`, a segment-list breadcrumb with a separator char
  * src/example.rs   — `Example` and its loose-form resolver `Example::from_ref`
  * src/spec/schema.rs — `Schema`, `SchemaOrBool`, `Type`, `Encoding`,
    `Schema::from_ref` (strict-form resolver)

Collaborators that are part of the repository but outside the provided
source files (`ObjectOrReference`, `Ref` / `RefType` / `RefError`,
`RefPath`, `Spec` / `Components`, and the serde-derived serialization)
are modelled from the specification; each such definition carries a doc
comment starting with "Modelled from the spec:".
-/

namespace Oas3

/-- Model of `serde_json::Value` (external collaborator): a JSON value.
Numbers are modelled as integers. -/
inductive Json where
  | null : Json
  | bool (b : Bool) : Json
  | num (n : Int) : Json
  | str (s : String) : Json
  | arr (items : List Json) : Json
  | obj (fields : List (String × Json)) : Json

/-- Lookup in an association list, modelling `BTreeMap::get` (first match). -/
def mapGet {α : Type} (m : List (String × α)) (k : String) : Option α :=
  match m with
  | [] => none
  | (k', v) :: rest => if k' = k then some v else mapGet rest k

/-- Modelled from the spec: `ObjectOrReference<T>` — "exactly one of
{inline value of T, reference string}" (missing from the provided source
files; only its users `Schema::from_ref` and `Example::from_ref` are). -/
inductive ObjectOrReference (T : Type) where
  | Ref (ref_path : String) : ObjectOrReference T
  | Object (obj : T) : ObjectOrReference T

/-- The `Type` enum of src/spec/schema.rs (named `SchemaType` here because
`Type` is reserved in Lean). Serde renames all variants to snake_case. -/
inductive SchemaType where
  | Boolean | Integer | Number | String | Array | Object | Null
  deriving DecidableEq

/-- The `Encoding` enum of src/spec/schema.rs; serde renames variants to
lowercase, except `QuotedPrintable` which is renamed "quoted-printable". -/
inductive Encoding where
  | Base16 | Hex | Base32 | Base32Hex | Base64 | Base64Url | QuotedPrintable
  deriving DecidableEq, Repr

/-- The `SchemaOrBool` untagged enum of src/spec/schema.rs, generalized over
the schema type so that `Schema` below can be a single nested inductive;
the source's `SchemaOrBool` is `SchemaOrBoolG Schema`. -/
inductive SchemaOrBoolG (S : Type) where
  | Schema (s : S) : SchemaOrBoolG S
  | Bool (b : Bool) : SchemaOrBoolG S

/-- The fields of the `Schema` struct of src/spec/schema.rs, parametrized by
the recursive occurrences (`X` stands for `Schema` itself). `BTreeMap` is
modelled as an association list, `Box` is elided, `u64` is `Nat`,
`serde_json::Number` is `Int`. Field order and names follow the source. -/
structure SchemaF (X : Type) where
  title : Option String := none
  description : Option String := none
  schema_type : Option SchemaType := none
  required : List String := []
  items : Option (ObjectOrReference X) := none
  properties : List (String × ObjectOrReference X) := []
  additional_properties : Option (ObjectOrReference (SchemaOrBoolG X)) := none
  content_encoding : Option Encoding := none
  content_media_type : Option String := none
  default : Option Json := none
  examples : List Json := []
  format : Option String := none
  enum_values : List String := []
  pattern : Option String := none
  multiple_of : Option Int := none
  minimum : Option Int := none
  exclusive_maximum : Option Int := none
  maximum : Option Int := none
  exclusive_minimum : Option Int := none
  min_length : Option Nat := none
  max_length : Option Nat := none
  min_items : Option Nat := none
  max_items : Option Nat := none
  unique_items : Option Bool := none
  max_properties : Option Nat := none
  min_properties : Option Nat := none
  read_only : Option Bool := none
  write_only : Option Bool := none
  all_of : List (ObjectOrReference X) := []
  one_of : List (ObjectOrReference X) := []
  any_of : List (ObjectOrReference X) := []

/-- The recursive `Schema` struct of src/spec/schema.rs, tied as a nested
inductive over its field record. -/
inductive Schema where
  | mk (f : SchemaF Schema) : Schema

/-- The source's (non-generic) `SchemaOrBool`. -/
abbrev SchemaOrBool : Type := SchemaOrBoolG Schema

/-- Field record of a schema. -/
def Schema.f : Schema → SchemaF Schema
  | .mk f => f

/-- `Schema::default()` (all fields at their `Default` values). -/
def Schema.deflt : Schema := .mk {}

/-- The `Example` struct of src/example.rs. -/
structure Example where
  summary : Option String := none
  description : Option String := none
  value : Option Json := none

/-- Modelled from the spec: the document's `Components` collaborator, which
"owns named mappings from string keys to `ObjectOrReference<T>` for each
entity kind (schemas, examples, …)"; only the two collections read by the
embedded resolvers are modelled, each as an association list standing for
a `BTreeMap`. -/
structure Components where
  schemas : List (String × ObjectOrReference Schema) := []
  examples : List (String × ObjectOrReference Example) := []

/-- Modelled from the spec: the owning document (`Spec`); its `components`
section is optional, as exercised by both resolvers via
`spec.components.as_ref().and_then(...)`. -/
structure Spec where
  components : Option Components := none

/-- Modelled from the spec: the closed `RefKind` enumeration of the strict
parser ("kind as a closed enumeration", "e.g. Schema, Parameter,
Response, …"); named `RefType` as in `schema.rs`'s import list. -/
inductive RefType where
  | Schema | Response | Parameter | Example | RequestBody | Header
  deriving DecidableEq

/-- Modelled from the spec: the typed resolution failures of §7 —
parse failure (`InvalidType`, strict form only), `MismatchedType(found,
expected)` and `Unresolvable(path)`; named as in `schema.rs`'s uses. -/
inductive RefError where
  | InvalidType (s : String) : RefError
  | MismatchedType (found expected : RefType) : RefError
  | Unresolvable (path : String) : RefError
  deriving DecidableEq

/-- Modelled from the spec: the strict structured reference
`{ kind: RefKind, name: string }`. -/
structure Ref where
  kind : RefType
  name : String
  deriving DecidableEq

/-- Modelled from the spec: the loose structured reference, whose kind
"is a plain string, e.g. \"examples\"", "with no validation that kind is
a recognized collection". -/
structure RefPath where
  kind : String
  name : String

/-- Split a character list at every occurrence of `sep`, as Rust's
`str::split(sep)` does ("a/b" ↦ ["a","b"], "" ↦ [""], "a/" ↦ ["a",""]). -/
def splitParts (cs : List Char) (sep : Char) : List (List Char) :=
  match cs with
  | [] => [[]]
  | c :: rest =>
    match splitParts rest sep with
    | [] => if c = sep then [[], [c]] else [[c]]
    | h :: t => if c = sep then [] :: h :: t else (c :: h) :: t

/-- The `/`-separated segments of a reference string. -/
def refSegments (s : String) : List String :=
  (splitParts s.data '/').map fun cs => String.mk cs

/-- Modelled from the spec: the loose parser — "extract a kind token (a
plain string) and a name token", the final two path segments, stripping
any leading prefix; a string with fewer than two segments yields an empty
kind token (which no caller recognizes). -/
def RefPath.from_str (path : String) : RefPath :=
  match (refSegments path).reverse with
  | name :: kind :: _ => ⟨kind, name⟩
  | [name] => ⟨"", name⟩
  | [] => ⟨"", ""⟩

/-- Modelled from the spec: mapping a collection-segment token to the
closed `RefType` enumeration; "an input whose collection segment does not
map to any known `RefKind` is a parse failure (`RefError`)". -/
def RefType.from_str (s : String) : Except RefError RefType :=
  match s with
  | "schemas" => .ok .Schema
  | "responses" => .ok .Response
  | "parameters" => .ok .Parameter
  | "examples" => .ok .Example
  | "requestBodies" => .ok .RequestBody
  | "headers" => .ok .Header
  | other => .error (.InvalidType other)

/-- Modelled from the spec: the strict parser (`path.parse::<Ref>()`) —
the final two segments are kind and name, the leading prefix is stripped
without validation; "malformed strings (missing segments, empty name)
fail parsing". -/
def parseRef (path : String) : Except RefError Ref :=
  match (refSegments path).reverse with
  | name :: kindStr :: _ =>
    if name = "" then .error (.InvalidType path)
    else
      match RefType.from_str kindStr with
      | .error e => .error e
      | .ok kind => .ok ⟨kind, name⟩
  | _ => .error (.InvalidType path)

/-- `Schema::from_ref` of src/spec/schema.rs. The delegation
`oor.resolve(spec)` on the looked-up entry is inlined (its inline arm
returns the stored object, its reference arm re-enters `from_ref`), with
a fuel parameter bounding the reference-chain depth that the Rust mutual
recursion leaves unbounded; fuel is consumed only on the reference arm,
which no claim about inline targets reaches. -/
def Schema.from_ref (fuel : Nat) (spec : Spec) (path : String) : Except RefError Schema :=
  match parseRef path with
  | .error e => .error e
  | .ok refpath =>
    match refpath.kind with
    | .Schema =>
      match spec.components.bind fun cs => mapGet cs.schemas refpath.name with
      | none => .error (.Unresolvable path)
      | some oor =>
        match oor with
        | .Object s => .ok s
        | .Ref rp =>
          match fuel with
          | 0 => .error (.Unresolvable rp)
          | f + 1 => Schema.from_ref f spec rp
    | typ => .error (.MismatchedType typ .Schema)

/-- Modelled from the spec: `resolve` on an `ObjectOrReference<Schema>` —
"if the variant is inline, return the inline value directly (success, no
lookup); if the variant is a reference, parse it and delegate to `T`'s
resolution contract with the document and the raw reference string". -/
def resolveSchema (fuel : Nat) (oor : ObjectOrReference Schema) (spec : Spec) :
    Except RefError Schema :=
  match oor with
  | .Object s => .ok s
  | .Ref rp =>
    match fuel with
    | 0 => .error (.Unresolvable rp)
    | f + 1 => Schema.from_ref f spec rp

/-- `Example::from_ref` of src/example.rs: the loose parser extracts the
kind token; only the literal string "examples" matches, anything else
returns `None`; the delegation `oor.resolve(&spec)` is inlined with fuel
exactly as in `Schema.from_ref`. -/
def Example.from_ref (fuel : Nat) (spec : Spec) (path : String) : Option Example :=
  match (RefPath.from_str path).kind with
  | "examples" =>
    (spec.components.bind fun cs =>
      mapGet cs.examples (RefPath.from_str path).name).bind fun oor =>
      match oor with
      | .Object o => some o
      | .Ref rp =>
        match fuel with
        | 0 => none
        | f + 1 => Example.from_ref f spec rp
  | _ => none
/-- Modelled from the spec: `resolve` on an `ObjectOrReference<Example>`
(the loose, `Option`-valued form of the resolution contract). -/
def resolveExample (fuel : Nat) (oor : ObjectOrReference Example) (spec : Spec) :
    Option Example :=
  match oor with
  | .Object o => some o
  | .Ref rp =>
    match fuel with
    | 0 => none
    | f + 1 => Example.from_ref f spec rp

/-- The `Path` struct of src/path.rs: a `Vec<String>` of parts plus a
separator character. -/
structure Path where
  parts : List String
  separator : Char

/-- `Path::new(sep)`: the empty path with the given separator. -/
def Path.new (sep : Char) : Path := ⟨[], sep⟩

/-- `Path::is_root`: whether the part list is empty. -/
def Path.is_root (p : Path) : Bool := p.parts.isEmpty

/-- `Path::push(part)`: append a part in place (`Vec::push`); the mutation
is modelled by returning the updated path. -/
def Path.push (p : Path) (part : String) : Path :=
  { p with parts := p.parts ++ [part] }

/-- `Path::pop()`: remove and return the last part (`Vec::pop`); the
mutation is modelled by returning the popped element with the updated
path. -/
def Path.pop (p : Path) : Option String × Path :=
  (p.parts.getLast?, { p with parts := p.parts.dropLast })

/-- `Path::extend(part)`: clone `self` and push `part` onto the clone. -/
def Path.extend (p : Path) (part : String) : Path :=
  { p with parts := p.parts ++ [part] }

/-- `Path::default()`: empty parts, separator `/`. -/
def Path.deflt : Path := ⟨[], '/'⟩

/-- `Display for Path`: the parts joined by the separator. -/
def Path.display (p : Path) : String :=
  String.intercalate (String.mk [p.separator]) p.parts

/-- `PartialEq for Path`: "self.parts == other.parts" — the separator is
not compared. -/
def Path.eq (p q : Path) : Bool := p.parts == q.parts

/-! ### Serialization

Model of the serde-derived `Serialize`/`Deserialize` for `Schema`,
following the field attributes of src/spec/schema.rs: fields are emitted
in declaration order under their (renamed) wire names, `Option` fields
are skipped when `None`, `Vec`/`BTreeMap` fields are skipped when empty
and default to empty when missing, and `ObjectOrReference` /
`SchemaOrBool` are untagged (a reference serializes as an object with a
single `$ref` member, tried first on the way back in). -/

/-- Wire name of each `Type` variant (serde `rename_all = "snake_case"`). -/
def schemaTypeWire : SchemaType → String
  | .Boolean => "boolean"
  | .Integer => "integer"
  | .Number => "number"
  | .String => "string"
  | .Array => "array"
  | .Object => "object"
  | .Null => "null"

/-- Wire name of each `Encoding` variant (serde `rename_all = "lowercase"`
plus the explicit rename of `QuotedPrintable`). -/
def encodingWire : Encoding → String
  | .Base16 => "base16"
  | .Hex => "hex"
  | .Base32 => "base32"
  | .Base32Hex => "base32hex"
  | .Base64 => "base64"
  | .Base64Url => "base64url"
  | .QuotedPrintable => "quoted-printable"

/-- An optional serialized field: absent values emit nothing
(`skip_serializing_if = "Option::is_none"`). -/
def optField (name : String) : Option Json → List (String × Json)
  | none => []
  | some j => [(name, j)]

/-- A collection-valued serialized field: empty collections emit nothing
(`skip_serializing_if = "Vec::is_empty"` / `"BTreeMap::is_empty"`). -/
def defField (name : String) (empty : Bool) (j : Json) : List (String × Json) :=
  if empty then [] else [(name, j)]

/-- Auto-sized bound for the `items` field. -/
theorem sizeOf_items_lt {X : Type} [SizeOf X] (f : SchemaF X) :
    sizeOf f.items < sizeOf f := by
  cases f
  simp only [SchemaF.items, SchemaF.mk.sizeOf_spec]
  omega

/-- Auto-sized bound for the `additional_properties` field. -/
theorem sizeOf_addProps_lt {X : Type} [SizeOf X] (f : SchemaF X) :
    sizeOf f.additional_properties < sizeOf f := by
  cases f
  simp only [SchemaF.additional_properties, SchemaF.mk.sizeOf_spec]
  omega

/-- Auto-sized bound for the `properties` field. -/
theorem sizeOf_properties_lt {X : Type} [SizeOf X] (f : SchemaF X) :
    sizeOf f.properties < sizeOf f := by
  cases f
  simp only [SchemaF.properties, SchemaF.mk.sizeOf_spec]
  omega

/-- Auto-sized bound for the `all_of` field. -/
theorem sizeOf_all_of_lt {X : Type} [SizeOf X] (f : SchemaF X) :
    sizeOf f.all_of < sizeOf f := by
  cases f
  simp only [SchemaF.all_of, SchemaF.mk.sizeOf_spec]
  omega

/-- Auto-sized bound for the `one_of` field. -/
theorem sizeOf_one_of_lt {X : Type} [SizeOf X] (f : SchemaF X) :
    sizeOf f.one_of < sizeOf f := by
  cases f
  simp only [SchemaF.one_of, SchemaF.mk.sizeOf_spec]
  omega

/-- Auto-sized bound for the `any_of` field. -/
theorem sizeOf_any_of_lt {X : Type} [SizeOf X] (f : SchemaF X) :
    sizeOf f.any_of < sizeOf f := by
  cases f
  simp only [SchemaF.any_of, SchemaF.mk.sizeOf_spec]
  omega

/-- The serialized segments of fields `title` through `required` of a
schema (the prefix of the declaration order with no recursive payload). -/
def serHead (f : SchemaF Schema) : List (String × Json) :=
  optField "title" (f.title.map Json.str) ++
  optField "description" (f.description.map Json.str) ++
  optField "type" (f.schema_type.map fun t => Json.str (schemaTypeWire t)) ++
  defField "required" f.required.isEmpty (Json.arr (f.required.map Json.str))

/-- The serialized segments of fields `content_encoding` through
`write_only` of a schema (the scalar middle of the declaration order). -/
def serMid (f : SchemaF Schema) : List (String × Json) :=
  optField "contentEncoding" (f.content_encoding.map fun e => Json.str (encodingWire e)) ++
  optField "contentMediaType" (f.content_media_type.map Json.str) ++
  optField "default" f.default ++
  defField "examples" f.examples.isEmpty (Json.arr f.examples) ++
  optField "format" (f.format.map Json.str) ++
  defField "enum" f.enum_values.isEmpty (Json.arr (f.enum_values.map Json.str)) ++
  optField "pattern" (f.pattern.map Json.str) ++
  optField "multipleOf" (f.multiple_of.map Json.num) ++
  optField "minimum" (f.minimum.map Json.num) ++
  optField "exclusiveMaximum" (f.exclusive_maximum.map Json.num) ++
  optField "maximum" (f.maximum.map Json.num) ++
  optField "exclusiveMinimum" (f.exclusive_minimum.map Json.num) ++
  optField "minLength" (f.min_length.map fun n => Json.num (Int.ofNat n)) ++
  optField "maxLength" (f.max_length.map fun n => Json.num (Int.ofNat n)) ++
  optField "minItems" (f.min_items.map fun n => Json.num (Int.ofNat n)) ++
  optField "maxItems" (f.max_items.map fun n => Json.num (Int.ofNat n)) ++
  optField "uniqueItems" (f.unique_items.map Json.bool) ++
  optField "maxProperties" (f.max_properties.map fun n => Json.num (Int.ofNat n)) ++
  optField "minProperties" (f.min_properties.map fun n => Json.num (Int.ofNat n)) ++
  optField "readOnly" (f.read_only.map Json.bool) ++
  optField "writeOnly" (f.write_only.map Json.bool)

mutual

/-- serde `Serialize` for `Schema`: a JSON object listing the present
fields in declaration order under their wire names. -/
def Schema.toJson : Schema → Json
  | .mk f => Json.obj (serFields f)
termination_by s => sizeOf s
decreasing_by
simp only [Schema.mk.sizeOf_spec]
omega

/-- The serialized field list of a schema record, in declaration order. -/
def serFields (f : SchemaF Schema) : List (String × Json) :=
  serHead f ++
  serOptOorField "items" f.items ++
  defField "properties" f.properties.isEmpty (Json.obj (propsToJson f.properties)) ++
  serOptOorSobField "additionalProperties" f.additional_properties ++
  serMid f ++
  defField "allOf" f.all_of.isEmpty (Json.arr (oorListToJson f.all_of)) ++
  defField "oneOf" f.one_of.isEmpty (Json.arr (oorListToJson f.one_of)) ++
  defField "anyOf" f.any_of.isEmpty (Json.arr (oorListToJson f.any_of))
termination_by sizeOf f
decreasing_by
all_goals first
  | (have hsz := sizeOf_items_lt f; omega)
  | (have hsz := sizeOf_addProps_lt f; omega)
  | (have hsz := sizeOf_properties_lt f; omega)
  | (have hsz := sizeOf_all_of_lt f; omega)
  | (have hsz := sizeOf_one_of_lt f; omega)
  | (have hsz := sizeOf_any_of_lt f; omega)

/-- Serialized segment of an optional `ObjectOrReference<Schema>` field. -/
def serOptOorField (n : String) : Option (ObjectOrReference Schema) → List (String × Json)
  | none => []
  | some oor => [(n, oorSchemaToJson oor)]
termination_by o => sizeOf o

/-- Serialized segment of an optional `ObjectOrReference<SchemaOrBool>` field. -/
def serOptOorSobField (n : String) : Option (ObjectOrReference SchemaOrBool) → List (String × Json)
  | none => []
  | some oor => [(n, oorSobToJson oor)]
termination_by o => sizeOf o

/-- serde `Serialize` for `ObjectOrReference<Schema>` (untagged): a
reference becomes an object with the single `$ref` member. -/
def oorSchemaToJson : ObjectOrReference Schema → Json
  | .Ref p => Json.obj [("$ref", Json.str p)]
  | .Object s => Schema.toJson s
termination_by oor => sizeOf oor

/-- serde `Serialize` for `SchemaOrBool` (untagged). -/
def sobToJson : SchemaOrBool → Json
  | .Schema s => Schema.toJson s
  | .Bool b => Json.bool b
termination_by sb => sizeOf sb

/-- serde `Serialize` for `ObjectOrReference<SchemaOrBool>` (untagged). -/
def oorSobToJson : ObjectOrReference SchemaOrBool → Json
  | .Ref p => Json.obj [("$ref", Json.str p)]
  | .Object sb => sobToJson sb
termination_by oor => sizeOf oor

/-- serde `Serialize` for the `properties` map. -/
def propsToJson : List (String × ObjectOrReference Schema) → List (String × Json)
  | [] => []
  | (k, oor) :: rest => (k, oorSchemaToJson oor) :: propsToJson rest
termination_by l => sizeOf l

/-- serde `Serialize` for a `Vec<ObjectOrReference<Schema>>`. -/
def oorListToJson : List (ObjectOrReference Schema) → List Json
  | [] => []
  | oor :: rest => oorSchemaToJson oor :: oorListToJson rest
termination_by l => sizeOf l

end

/-! ### Deserialization -/

/-- Decode a JSON string. -/
def decStr : Json → Option String
  | Json.str s => some s
  | _ => none

/-- Decode a JSON boolean. -/
def decBool : Json → Option Bool
  | Json.bool b => some b
  | _ => none

/-- Decode a number (`serde_json::Number`, modelled as `Int`). -/
def decInt : Json → Option Int
  | Json.num n => some n
  | _ => none

/-- Decode a `u64` (modelled as `Nat`): a non-negative number. -/
def decNat : Json → Option Nat
  | Json.num (Int.ofNat n) => some n
  | _ => none

/-- Decode a `Type` from its wire name. -/
def decSchemaType : Json → Option SchemaType
  | Json.str "boolean" => some .Boolean
  | Json.str "integer" => some .Integer
  | Json.str "number" => some .Number
  | Json.str "string" => some .String
  | Json.str "array" => some .Array
  | Json.str "object" => some .Object
  | Json.str "null" => some .Null
  | _ => none

/-- Decode an `Encoding` from its wire name. -/
def decEncoding : Json → Option Encoding
  | Json.str "base16" => some .Base16
  | Json.str "hex" => some .Hex
  | Json.str "base32" => some .Base32
  | Json.str "base32hex" => some .Base32Hex
  | Json.str "base64" => some .Base64
  | Json.str "base64url" => some .Base64Url
  | Json.str "quoted-printable" => some .QuotedPrintable
  | _ => none

/-- Decode a list of JSON strings. -/
def decStrs : List Json → Option (List String)
  | [] => some []
  | Json.str s :: rest => (decStrs rest).map fun l => s :: l
  | _ => none

/-- Decode a `Vec<String>` (a JSON array of strings). -/
def decStrList : Json → Option (List String)
  | Json.arr xs => decStrs xs
  | _ => none

/-- Decode a `Vec<serde_json::Value>` (any JSON array). -/
def decJsonList : Json → Option (List Json)
  | Json.arr xs => some xs
  | _ => none

/-- Decode an `Option` field: a missing field is `None`, a present field
must decode. -/
def decodeOpt {α : Type} (dec : Json → Option α) : Option Json → Option (Option α)
  | none => some none
  | some j => (dec j).map some

/-- Decode a `#[serde(default)]` collection field: a missing field is the
default, a present field must decode. -/
def decodeDflt {α : Type} (dec : Json → Option α) (dflt : α) : Option Json → Option α
  | none => some dflt
  | some j => dec j

/-- Decoded fields `title` through `required`. -/
def decScalarsA (fs : List (String × Json)) :
    Option (Option String × Option String × Option SchemaType × List String) :=
  (decodeOpt decStr (mapGet fs "title")).bind fun title =>
  (decodeOpt decStr (mapGet fs "description")).bind fun description =>
  (decodeOpt decSchemaType (mapGet fs "type")).bind fun schema_type =>
  (decodeDflt decStrList [] (mapGet fs "required")).map fun required =>
  (title, description, schema_type, required)

/-- Decoded fields `content_encoding` through `format`. -/
def decScalarsB (fs : List (String × Json)) :
    Option (Option Encoding × Option String × Option Json × List Json × Option String) :=
  (decodeOpt decEncoding (mapGet fs "contentEncoding")).bind fun content_encoding =>
  (decodeOpt decStr (mapGet fs "contentMediaType")).bind fun content_media_type =>
  (decodeOpt some (mapGet fs "default")).bind fun dflt =>
  (decodeDflt decJsonList [] (mapGet fs "examples")).bind fun examples =>
  (decodeOpt decStr (mapGet fs "format")).map fun format =>
  (content_encoding, content_media_type, dflt, examples, format)

/-- Decoded fields `enum_values` through `exclusive_maximum`. -/
def decScalarsC (fs : List (String × Json)) :
    Option (List String × Option String × Option Int × Option Int × Option Int) :=
  (decodeDflt decStrList [] (mapGet fs "enum")).bind fun enum_values =>
  (decodeOpt decStr (mapGet fs "pattern")).bind fun pat =>
  (decodeOpt decInt (mapGet fs "multipleOf")).bind fun multiple_of =>
  (decodeOpt decInt (mapGet fs "minimum")).bind fun minimum =>
  (decodeOpt decInt (mapGet fs "exclusiveMaximum")).map fun exclusive_maximum =>
  (enum_values, pat, multiple_of, minimum, exclusive_maximum)

/-- Decoded fields `maximum` through `min_items`. -/
def decScalarsD (fs : List (String × Json)) :
    Option (Option Int × Option Int × Option Nat × Option Nat × Option Nat) :=
  (decodeOpt decInt (mapGet fs "maximum")).bind fun maximum =>
  (decodeOpt decInt (mapGet fs "exclusiveMinimum")).bind fun exclusive_minimum =>
  (decodeOpt decNat (mapGet fs "minLength")).bind fun min_length =>
  (decodeOpt decNat (mapGet fs "maxLength")).bind fun max_length =>
  (decodeOpt decNat (mapGet fs "minItems")).map fun min_items =>
  (maximum, exclusive_minimum, min_length, max_length, min_items)

/-- Decoded fields `max_items` through `write_only`. -/
def decScalarsE (fs : List (String × Json)) :
    Option (Option Nat × Option Bool × Option Nat × Option Nat × Option Bool × Option Bool) :=
  (decodeOpt decNat (mapGet fs "maxItems")).bind fun max_items =>
  (decodeOpt decBool (mapGet fs "uniqueItems")).bind fun unique_items =>
  (decodeOpt decNat (mapGet fs "maxProperties")).bind fun max_properties =>
  (decodeOpt decNat (mapGet fs "minProperties")).bind fun min_properties =>
  (decodeOpt decBool (mapGet fs "readOnly")).bind fun read_only =>
  (decodeOpt decBool (mapGet fs "writeOnly")).map fun write_only =>
  (max_items, unique_items, max_properties, min_properties, read_only, write_only)

/-- Decode every non-recursive field of a schema object into a field
record whose recursive fields are left at their defaults (unknown fields
are ignored, as serde does without `deny_unknown_fields`). -/
def decScalars (fs : List (String × Json)) : Option (SchemaF Schema) :=
  (decScalarsA fs).bind fun (title, description, schema_type, required) =>
  (decScalarsB fs).bind fun (content_encoding, content_media_type, dflt, examples, format) =>
  (decScalarsC fs).bind fun (enum_values, pat, multiple_of, minimum, exclusive_maximum) =>
  (decScalarsD fs).bind fun (maximum, exclusive_minimum, min_length, max_length, min_items) =>
  (decScalarsE fs).map fun (max_items, unique_items, max_properties, min_properties, read_only, write_only) =>
    { title := title, description := description, schema_type := schema_type,
      required := required, content_encoding := content_encoding,
      content_media_type := content_media_type, default := dflt,
      examples := examples, format := format, enum_values := enum_values,
      pattern := pat, multiple_of := multiple_of, minimum := minimum,
      exclusive_maximum := exclusive_maximum, maximum := maximum,
      exclusive_minimum := exclusive_minimum, min_length := min_length,
      max_length := max_length, min_items := min_items, max_items := max_items,
      unique_items := unique_items, max_properties := max_properties,
      min_properties := min_properties, read_only := read_only,
      write_only := write_only }

/-- The `$ref` member of a JSON object, when it is a string: the shape
the untagged `Ref` variant of `ObjectOrReference` accepts (tried before
the inline variant, matching the declaration order of the enum). -/
def refOf : Json → Option String
  | Json.obj fs =>
    match mapGet fs "$ref" with
    | some (Json.str p) => some p
    | _ => none
  | _ => none

/-- A successful `mapGet` finds a member of the list. -/
theorem mapGet_mem {α : Type} {m : List (String × α)} {k : String} {v : α}
    (h : mapGet m k = some v) : (k, v) ∈ m := by
  induction m with
  | nil => simp [mapGet] at h
  | cons hd tl ih =>
    obtain ⟨k2, v2⟩ := hd
    rw [mapGet] at h
    split at h
    · next heq =>
      cases h
      subst heq
      exact List.mem_cons_self _ _
    · exact List.mem_cons_of_mem _ (ih h)

/-- A value found by `mapGet` is smaller than the list holding it. -/
theorem sizeOf_lt_of_mapGet {α : Type} [SizeOf α] {m : List (String × α)}
    {k : String} {v : α} (h : mapGet m k = some v) : sizeOf v < sizeOf m := by
  have h2 := List.sizeOf_lt_of_mem (mapGet_mem h)
  simp only [Prod.mk.sizeOf_spec] at h2
  omega

/-- The result of `mapGet` is no larger than the list searched. -/
theorem sizeOf_mapGet_le {α : Type} [SizeOf α] {m : List (String × α)}
    {k : String} : sizeOf (mapGet m k) ≤ sizeOf m := by
  match h : mapGet m k with
  | none =>
    have : 1 ≤ sizeOf m := by
      cases m with
      | nil => simp
      | cons hd tl =>
        simp only [List.cons.sizeOf_spec]
        omega
    simpa using this
  | some v =>
    have := sizeOf_lt_of_mapGet h
    simp only [Option.some.sizeOf_spec]
    omega

mutual

/-- serde `Deserialize` for `Schema`: accepts any JSON object, decoding
each known field from its wire name and defaulting missing `Option` /
collection fields; any other JSON value is rejected. -/
def Schema.fromJson : Json → Option Schema
  | Json.obj fs =>
    (decScalars fs).bind fun base =>
    (decOptOorField (mapGet fs "items")).bind fun items =>
    (decPropsField (mapGet fs "properties")).bind fun properties =>
    (decOptOorSobField (mapGet fs "additionalProperties")).bind fun additional_properties =>
    (decOorListField (mapGet fs "allOf")).bind fun all_of =>
    (decOorListField (mapGet fs "oneOf")).bind fun one_of =>
    (decOorListField (mapGet fs "anyOf")).map fun any_of =>
      Schema.mk { base with
        items := items
        properties := properties
        additional_properties := additional_properties
        all_of := all_of
        one_of := one_of
        any_of := any_of }
  | _ => none
termination_by j => (sizeOf j, 0)
decreasing_by
all_goals
  (apply Prod.Lex.left
   simp only [Json.obj.sizeOf_spec]
   exact lt_of_le_of_lt sizeOf_mapGet_le (by omega))

/-- Decode an optional `ObjectOrReference<Schema>` field. -/
def decOptOorField : Option Json → Option (Option (ObjectOrReference Schema))
  | none => some none
  | some j => (oorSchemaFromJson j).map some
termination_by o => (sizeOf o, 5)

/-- Decode the `properties` field (a JSON object when present). -/
def decPropsField : Option Json → Option (List (String × ObjectOrReference Schema))
  | none => some []
  | some (Json.obj pfs) => propsFromJson pfs
  | some _ => none
termination_by o => (sizeOf o, 5)
decreasing_by
simp only [Option.some.sizeOf_spec, Json.obj.sizeOf_spec]
omega

/-- Decode an optional `ObjectOrReference<SchemaOrBool>` field. -/
def decOptOorSobField : Option Json → Option (Option (ObjectOrReference SchemaOrBool))
  | none => some none
  | some j => (oorSobFromJson j).map some
termination_by o => (sizeOf o, 5)

/-- Decode an `allOf`-style field (a JSON array when present). -/
def decOorListField : Option Json → Option (List (ObjectOrReference Schema))
  | none => some []
  | some (Json.arr xs) => oorListFromJson xs
  | some _ => none
termination_by o => (sizeOf o, 5)
decreasing_by
simp only [Option.some.sizeOf_spec, Json.arr.sizeOf_spec]
omega

/-- serde `Deserialize` for `ObjectOrReference<Schema>` (untagged): the
`Ref` variant is tried first, then the inline one on the same value. -/
def oorSchemaFromJson (j : Json) : Option (ObjectOrReference Schema) :=
  match refOf j with
  | some p => some (.Ref p)
  | none => (Schema.fromJson j).map .Object
termination_by (sizeOf j, 2)

/-- serde `Deserialize` for `SchemaOrBool` (untagged): the `Schema`
variant is tried first, then the boolean on the same value. -/
def sobFromJson (j : Json) : Option SchemaOrBool :=
  ((Schema.fromJson j).map SchemaOrBoolG.Schema).or
    (match j with
     | Json.bool b => some (.Bool b)
     | _ => none)
termination_by (sizeOf j, 1)

/-- serde `Deserialize` for `ObjectOrReference<SchemaOrBool>` (untagged). -/
def oorSobFromJson (j : Json) : Option (ObjectOrReference SchemaOrBool) :=
  match refOf j with
  | some p => some (.Ref p)
  | none => (sobFromJson j).map .Object
termination_by (sizeOf j, 3)

/-- serde `Deserialize` for the `properties` map. -/
def propsFromJson : List (String × Json) → Option (List (String × ObjectOrReference Schema))
  | [] => some []
  | (k, j) :: rest =>
    (oorSchemaFromJson j).bind fun oor =>
    (propsFromJson rest).map fun tail => (k, oor) :: tail
termination_by l => (sizeOf l, 0)

/-- serde `Deserialize` for a `Vec<ObjectOrReference<Schema>>`. -/
def oorListFromJson : List Json → Option (List (ObjectOrReference Schema))
  | [] => some []
  | j :: rest =>
    (oorSchemaFromJson j).bind fun oor =>
    (oorListFromJson rest).map fun tail => oor :: tail
termination_by l => (sizeOf l, 0)

end

/-! ### Round-trip -/

/-- `Option.or` of `some` keeps the first value. -/
theorem some_or_eq {α : Type} (a : α) (b : Option α) : (some a).or b = some a := rfl

/-- `mapGet` distributes over append, preferring the left list. -/
theorem mapGet_append {α : Type} (A B : List (String × α)) (k : String) :
    mapGet (A ++ B) k = (mapGet A k).or (mapGet B k) := by
  induction A with
  | nil => simp [mapGet, Option.none_or]
  | cons hd tl ih =>
    obtain ⟨k2, v2⟩ := hd
    by_cases h : k2 = k
    · simp [mapGet, h, some_or_eq]
    · simp [mapGet, h, ih]

/-- `mapGet` on an optional serialized field. -/
theorem mapGet_optField (n : String) (v : Option Json) (k : String) :
    mapGet (optField n v) k = if n = k then v else none := by
  cases v with
  | none => simp [optField, mapGet]
  | some j =>
    by_cases h : n = k <;> simp [optField, mapGet, h]

/-- `mapGet` on a collection-valued serialized field. -/
theorem mapGet_defField (n : String) (e : Bool) (j : Json) (k : String) :
    mapGet (defField n e j) k =
      if n = k then (if e then none else some j) else none := by
  cases e with
  | true => simp [defField, mapGet]
  | false =>
    by_cases h : n = k <;> simp [defField, mapGet, h]

/-- `mapGet` on a serialized optional `ObjectOrReference<Schema>` field. -/
theorem mapGet_serOptOorField (n : String) (o : Option (ObjectOrReference Schema))
    (k : String) :
    mapGet (serOptOorField n o) k =
      if n = k then o.map oorSchemaToJson else none := by
  cases o with
  | none => simp [serOptOorField, mapGet]
  | some oor =>
    by_cases h : n = k <;> simp [serOptOorField, mapGet, h]

/-- `mapGet` on a serialized optional `ObjectOrReference<SchemaOrBool>` field. -/
theorem mapGet_serOptOorSobField (n : String) (o : Option (ObjectOrReference SchemaOrBool))
    (k : String) :
    mapGet (serOptOorSobField n o) k =
      if n = k then o.map oorSobToJson else none := by
  cases o with
  | none => simp [serOptOorSobField, mapGet]
  | some oor =>
    by_cases h : n = k <;> simp [serOptOorSobField, mapGet, h]

/-- Decoding a serialized optional string field restores it. -/
theorem decodeOpt_str_rt (o : Option String) :
    decodeOpt decStr (o.map Json.str) = some o := by
  cases o <;> rfl

/-- Decoding a serialized `type` field restores it. -/
theorem decodeOpt_schemaType_rt (o : Option SchemaType) :
    decodeOpt decSchemaType (o.map fun t => Json.str (schemaTypeWire t)) = some o := by
  cases o with
  | none => rfl
  | some t => cases t <;> rfl

/-- Decoding a serialized `contentEncoding` field restores it. -/
theorem decodeOpt_encoding_rt (o : Option Encoding) :
    decodeOpt decEncoding (o.map fun e => Json.str (encodingWire e)) = some o := by
  cases o with
  | none => rfl
  | some e => cases e <;> rfl

/-- Decoding a serialized optional number field restores it. -/
theorem decodeOpt_int_rt (o : Option Int) :
    decodeOpt decInt (o.map Json.num) = some o := by
  cases o <;> rfl

/-- Decoding a serialized optional `u64` field restores it. -/
theorem decodeOpt_nat_rt (o : Option Nat) :
    decodeOpt decNat (o.map fun n => Json.num (Int.ofNat n)) = some o := by
  cases o <;> rfl

/-- Decoding a serialized optional boolean field restores it. -/
theorem decodeOpt_bool_rt (o : Option Bool) :
    decodeOpt decBool (o.map Json.bool) = some o := by
  cases o <;> rfl

/-- Decoding a serialized optional raw-value field restores it. -/
theorem decodeOpt_value_rt (o : Option Json) : decodeOpt some o = some o := by
  cases o <;> rfl

/-- Decoding a serialized list of strings restores it. -/
theorem decStrs_map (l : List String) : decStrs (l.map Json.str) = some l := by
  induction l with
  | nil => rfl
  | cons a as ih => simp [decStrs, ih]

/-- Decoding a serialized (possibly skipped) `Vec<String>` field restores it. -/
theorem decodeDflt_strList_rt (l : List String) :
    decodeDflt decStrList []
      (if l.isEmpty then none else some (Json.arr (l.map Json.str))) = some l := by
  cases l with
  | nil => rfl
  | cons a as => simp [decodeDflt, decStrList, decStrs, decStrs_map]

/-- Decoding a serialized (possibly skipped) `Vec<serde_json::Value>`
field restores it. -/
theorem decodeDflt_jsonList_rt (l : List Json) :
    decodeDflt decJsonList []
      (if l.isEmpty then none else some (Json.arr l)) = some l := by
  cases l with
  | nil => rfl
  | cons a as => simp [decodeDflt, decJsonList]

/-- The scalar part of a schema record: the recursive fields reset to
their defaults. -/
def scalarPart (f : SchemaF Schema) : SchemaF Schema :=
  { f with
    items := none
    properties := []
    additional_properties := none
    all_of := []
    one_of := []
    any_of := [] }

/-- The serialized value found under the wire name "title". -/
theorem mapGet_serFields_title (f : SchemaF Schema) :
    mapGet (serFields f) "title" = f.title.map Json.str := by
  simp [serFields, serHead, serMid, mapGet_append, mapGet_optField,
    mapGet_defField, mapGet_serOptOorField, mapGet_serOptOorSobField,
    Option.or_none, Option.none_or, some_or_eq]

/-- The serialized value found under the wire name "description". -/
theorem mapGet_serFields_description (f : SchemaF Schema) :
    mapGet (serFields f) "description" = f.description.map Json.str := by
  simp [serFields, serHead, serMid, mapGet_append, mapGet_optField,
    mapGet_defField, mapGet_serOptOorField, mapGet_serOptOorSobField,
    Option.or_none, Option.none_or, some_or_eq]

/-- The serialized value found under the wire name "type". -/
theorem mapGet_serFields_schemaType (f : SchemaF Schema) :
    mapGet (serFields f) "type" = f.schema_type.map fun t => Json.str (schemaTypeWire t) := by
  simp [serFields, serHead, serMid, mapGet_append, mapGet_optField,
    mapGet_defField, mapGet_serOptOorField, mapGet_serOptOorSobField,
    Option.or_none, Option.none_or, some_or_eq]

/-- The serialized value found under the wire name "required". -/
theorem mapGet_serFields_required (f : SchemaF Schema) :
    mapGet (serFields f) "required" = (if f.required.isEmpty then none else some (Json.arr (f.required.map Json.str))) := by
  simp [serFields, serHead, serMid, mapGet_append, mapGet_optField,
    mapGet_defField, mapGet_serOptOorField, mapGet_serOptOorSobField,
    Option.or_none, Option.none_or, some_or_eq]

/-- The serialized value found under the wire name "contentEncoding". -/
theorem mapGet_serFields_contentEncoding (f : SchemaF Schema) :
    mapGet (serFields f) "contentEncoding" = f.content_encoding.map fun e => Json.str (encodingWire e) := by
  simp [serFields, serHead, serMid, mapGet_append, mapGet_optField,
    mapGet_defField, mapGet_serOptOorField, mapGet_serOptOorSobField,
    Option.or_none, Option.none_or, some_or_eq]

/-- The serialized value found under the wire name "contentMediaType". -/
theorem mapGet_serFields_contentMediaType (f : SchemaF Schema) :
    mapGet (serFields f) "contentMediaType" = f.content_media_type.map Json.str := by
  simp [serFields, serHead, serMid, mapGet_append, mapGet_optField,
    mapGet_defField, mapGet_serOptOorField, mapGet_serOptOorSobField,
    Option.or_none, Option.none_or, some_or_eq]

/-- The serialized value found under the wire name "default". -/
theorem mapGet_serFields_dflt (f : SchemaF Schema) :
    mapGet (serFields f) "default" = f.default := by
  simp [serFields, serHead, serMid, mapGet_append, mapGet_optField,
    mapGet_defField, mapGet_serOptOorField, mapGet_serOptOorSobField,
    Option.or_none, Option.none_or, some_or_eq]

/-- The serialized value found under the wire name "examples". -/
theorem mapGet_serFields_examples (f : SchemaF Schema) :
    mapGet (serFields f) "examples" = (if f.examples.isEmpty then none else some (Json.arr f.examples)) := by
  simp [serFields, serHead, serMid, mapGet_append, mapGet_optField,
    mapGet_defField, mapGet_serOptOorField, mapGet_serOptOorSobField,
    Option.or_none, Option.none_or, some_or_eq]

/-- The serialized value found under the wire name "format". -/
theorem mapGet_serFields_format (f : SchemaF Schema) :
    mapGet (serFields f) "format" = f.format.map Json.str := by
  simp [serFields, serHead, serMid, mapGet_append, mapGet_optField,
    mapGet_defField, mapGet_serOptOorField, mapGet_serOptOorSobField,
    Option.or_none, Option.none_or, some_or_eq]

/-- The serialized value found under the wire name "enum". -/
theorem mapGet_serFields_enumVals (f : SchemaF Schema) :
    mapGet (serFields f) "enum" = (if f.enum_values.isEmpty then none else some (Json.arr (f.enum_values.map Json.str))) := by
  simp [serFields, serHead, serMid, mapGet_append, mapGet_optField,
    mapGet_defField, mapGet_serOptOorField, mapGet_serOptOorSobField,
    Option.or_none, Option.none_or, some_or_eq]

/-- The serialized value found under the wire name "pattern". -/
theorem mapGet_serFields_pat (f : SchemaF Schema) :
    mapGet (serFields f) "pattern" = f.pattern.map Json.str := by
  simp [serFields, serHead, serMid, mapGet_append, mapGet_optField,
    mapGet_defField, mapGet_serOptOorField, mapGet_serOptOorSobField,
    Option.or_none, Option.none_or, some_or_eq]

/-- The serialized value found under the wire name "multipleOf". -/
theorem mapGet_serFields_multipleOf (f : SchemaF Schema) :
    mapGet (serFields f) "multipleOf" = f.multiple_of.map Json.num := by
  simp [serFields, serHead, serMid, mapGet_append, mapGet_optField,
    mapGet_defField, mapGet_serOptOorField, mapGet_serOptOorSobField,
    Option.or_none, Option.none_or, some_or_eq]

/-- The serialized value found under the wire name "minimum". -/
theorem mapGet_serFields_minimum (f : SchemaF Schema) :
    mapGet (serFields f) "minimum" = f.minimum.map Json.num := by
  simp [serFields, serHead, serMid, mapGet_append, mapGet_optField,
    mapGet_defField, mapGet_serOptOorField, mapGet_serOptOorSobField,
    Option.or_none, Option.none_or, some_or_eq]

/-- The serialized value found under the wire name "exclusiveMaximum". -/
theorem mapGet_serFields_exclusiveMaximum (f : SchemaF Schema) :
    mapGet (serFields f) "exclusiveMaximum" = f.exclusive_maximum.map Json.num := by
  simp [serFields, serHead, serMid, mapGet_append, mapGet_optField,
    mapGet_defField, mapGet_serOptOorField, mapGet_serOptOorSobField,
    Option.or_none, Option.none_or, some_or_eq]

/-- The serialized value found under the wire name "maximum". -/
theorem mapGet_serFields_maximum (f : SchemaF Schema) :
    mapGet (serFields f) "maximum" = f.maximum.map Json.num := by
  simp [serFields, serHead, serMid, mapGet_append, mapGet_optField,
    mapGet_defField, mapGet_serOptOorField, mapGet_serOptOorSobField,
    Option.or_none, Option.none_or, some_or_eq]

/-- The serialized value found under the wire name "exclusiveMinimum". -/
theorem mapGet_serFields_exclusiveMinimum (f : SchemaF Schema) :
    mapGet (serFields f) "exclusiveMinimum" = f.exclusive_minimum.map Json.num := by
  simp [serFields, serHead, serMid, mapGet_append, mapGet_optField,
    mapGet_defField, mapGet_serOptOorField, mapGet_serOptOorSobField,
    Option.or_none, Option.none_or, some_or_eq]

/-- The serialized value found under the wire name "minLength". -/
theorem mapGet_serFields_minLength (f : SchemaF Schema) :
    mapGet (serFields f) "minLength" = f.min_length.map fun n => Json.num (Int.ofNat n) := by
  simp [serFields, serHead, serMid, mapGet_append, mapGet_optField,
    mapGet_defField, mapGet_serOptOorField, mapGet_serOptOorSobField,
    Option.or_none, Option.none_or, some_or_eq]

/-- The serialized value found under the wire name "maxLength". -/
theorem mapGet_serFields_maxLength (f : SchemaF Schema) :
    mapGet (serFields f) "maxLength" = f.max_length.map fun n => Json.num (Int.ofNat n) := by
  simp [serFields, serHead, serMid, mapGet_append, mapGet_optField,
    mapGet_defField, mapGet_serOptOorField, mapGet_serOptOorSobField,
    Option.or_none, Option.none_or, some_or_eq]

/-- The serialized value found under the wire name "minItems". -/
theorem mapGet_serFields_minItems (f : SchemaF Schema) :
    mapGet (serFields f) "minItems" = f.min_items.map fun n => Json.num (Int.ofNat n) := by
  simp [serFields, serHead, serMid, mapGet_append, mapGet_optField,
    mapGet_defField, mapGet_serOptOorField, mapGet_serOptOorSobField,
    Option.or_none, Option.none_or, some_or_eq]

/-- The serialized value found under the wire name "maxItems". -/
theorem mapGet_serFields_maxItems (f : SchemaF Schema) :
    mapGet (serFields f) "maxItems" = f.max_items.map fun n => Json.num (Int.ofNat n) := by
  simp [serFields, serHead, serMid, mapGet_append, mapGet_optField,
    mapGet_defField, mapGet_serOptOorField, mapGet_serOptOorSobField,
    Option.or_none, Option.none_or, some_or_eq]

/-- The serialized value found under the wire name "uniqueItems". -/
theorem mapGet_serFields_uniqueItems (f : SchemaF Schema) :
    mapGet (serFields f) "uniqueItems" = f.unique_items.map Json.bool := by
  simp [serFields, serHead, serMid, mapGet_append, mapGet_optField,
    mapGet_defField, mapGet_serOptOorField, mapGet_serOptOorSobField,
    Option.or_none, Option.none_or, some_or_eq]

/-- The serialized value found under the wire name "maxProperties". -/
theorem mapGet_serFields_maxProperties (f : SchemaF Schema) :
    mapGet (serFields f) "maxProperties" = f.max_properties.map fun n => Json.num (Int.ofNat n) := by
  simp [serFields, serHead, serMid, mapGet_append, mapGet_optField,
    mapGet_defField, mapGet_serOptOorField, mapGet_serOptOorSobField,
    Option.or_none, Option.none_or, some_or_eq]

/-- The serialized value found under the wire name "minProperties". -/
theorem mapGet_serFields_minProperties (f : SchemaF Schema) :
    mapGet (serFields f) "minProperties" = f.min_properties.map fun n => Json.num (Int.ofNat n) := by
  simp [serFields, serHead, serMid, mapGet_append, mapGet_optField,
    mapGet_defField, mapGet_serOptOorField, mapGet_serOptOorSobField,
    Option.or_none, Option.none_or, some_or_eq]

/-- The serialized value found under the wire name "readOnly". -/
theorem mapGet_serFields_readOnly (f : SchemaF Schema) :
    mapGet (serFields f) "readOnly" = f.read_only.map Json.bool := by
  simp [serFields, serHead, serMid, mapGet_append, mapGet_optField,
    mapGet_defField, mapGet_serOptOorField, mapGet_serOptOorSobField,
    Option.or_none, Option.none_or, some_or_eq]

/-- The serialized value found under the wire name "writeOnly". -/
theorem mapGet_serFields_writeOnly (f : SchemaF Schema) :
    mapGet (serFields f) "writeOnly" = f.write_only.map Json.bool := by
  simp [serFields, serHead, serMid, mapGet_append, mapGet_optField,
    mapGet_defField, mapGet_serOptOorField, mapGet_serOptOorSobField,
    Option.or_none, Option.none_or, some_or_eq]

/-- The serialized field list holds the `items` field exactly when present. -/
theorem mapGet_serFields_items (f : SchemaF Schema) :
    mapGet (serFields f) "items" = f.items.map oorSchemaToJson := by
  simp [serFields, serHead, serMid, mapGet_append, mapGet_optField,
    mapGet_defField, mapGet_serOptOorField, mapGet_serOptOorSobField,
    Option.or_none, Option.none_or, some_or_eq]

/-- The serialized field list holds the `properties` field exactly when
non-empty. -/
theorem mapGet_serFields_properties (f : SchemaF Schema) :
    mapGet (serFields f) "properties" =
      (if f.properties.isEmpty then none
       else some (Json.obj (propsToJson f.properties))) := by
  simp [serFields, serHead, serMid, mapGet_append, mapGet_optField,
    mapGet_defField, mapGet_serOptOorField, mapGet_serOptOorSobField,
    Option.or_none, Option.none_or, some_or_eq]

/-- The serialized field list holds `additionalProperties` exactly when
present. -/
theorem mapGet_serFields_addProps (f : SchemaF Schema) :
    mapGet (serFields f) "additionalProperties" =
      f.additional_properties.map oorSobToJson := by
  simp [serFields, serHead, serMid, mapGet_append, mapGet_optField,
    mapGet_defField, mapGet_serOptOorField, mapGet_serOptOorSobField,
    Option.or_none, Option.none_or, some_or_eq]

/-- The serialized field list holds `allOf` exactly when non-empty. -/
theorem mapGet_serFields_allOf (f : SchemaF Schema) :
    mapGet (serFields f) "allOf" =
      (if f.all_of.isEmpty then none
       else some (Json.arr (oorListToJson f.all_of))) := by
  simp [serFields, serHead, serMid, mapGet_append, mapGet_optField,
    mapGet_defField, mapGet_serOptOorField, mapGet_serOptOorSobField,
    Option.or_none, Option.none_or, some_or_eq]

/-- The serialized field list holds `oneOf` exactly when non-empty. -/
theorem mapGet_serFields_oneOf (f : SchemaF Schema) :
    mapGet (serFields f) "oneOf" =
      (if f.one_of.isEmpty then none
       else some (Json.arr (oorListToJson f.one_of))) := by
  simp [serFields, serHead, serMid, mapGet_append, mapGet_optField,
    mapGet_defField, mapGet_serOptOorField, mapGet_serOptOorSobField,
    Option.or_none, Option.none_or, some_or_eq]

/-- The serialized field list holds `anyOf` exactly when non-empty. -/
theorem mapGet_serFields_anyOf (f : SchemaF Schema) :
    mapGet (serFields f) "anyOf" =
      (if f.any_of.isEmpty then none
       else some (Json.arr (oorListToJson f.any_of))) := by
  simp [serFields, serHead, serMid, mapGet_append, mapGet_optField,
    mapGet_defField, mapGet_serOptOorField, mapGet_serOptOorSobField,
    Option.or_none, Option.none_or, some_or_eq]

/-- A serialized schema object never carries a `$ref` member, so the
untagged reference variant never captures it on the way back in. -/
theorem refOf_serFields (f : SchemaF Schema) :
    refOf (Json.obj (serFields f)) = none := by
  simp [refOf, serFields, serHead, serMid, mapGet_append, mapGet_optField,
    mapGet_defField, mapGet_serOptOorField, mapGet_serOptOorSobField,
    Option.or_none, Option.none_or, some_or_eq]

/-- Decoding the scalar fields of a serialized schema restores them. -/
theorem decScalars_serFields (f : SchemaF Schema) :
    decScalars (serFields f) = some (scalarPart f) := by
  simp only [decScalars, decScalarsA, decScalarsB, decScalarsC, decScalarsD,
    decScalarsE, mapGet_serFields_title,
    mapGet_serFields_description,
    mapGet_serFields_schemaType,
    mapGet_serFields_required,
    mapGet_serFields_contentEncoding,
    mapGet_serFields_contentMediaType,
    mapGet_serFields_dflt,
    mapGet_serFields_examples,
    mapGet_serFields_format,
    mapGet_serFields_enumVals,
    mapGet_serFields_pat,
    mapGet_serFields_multipleOf,
    mapGet_serFields_minimum,
    mapGet_serFields_exclusiveMaximum,
    mapGet_serFields_maximum,
    mapGet_serFields_exclusiveMinimum,
    mapGet_serFields_minLength,
    mapGet_serFields_maxLength,
    mapGet_serFields_minItems,
    mapGet_serFields_maxItems,
    mapGet_serFields_uniqueItems,
    mapGet_serFields_maxProperties,
    mapGet_serFields_minProperties,
    mapGet_serFields_readOnly,
    mapGet_serFields_writeOnly,
    decodeOpt_str_rt, decodeOpt_schemaType_rt, decodeOpt_encoding_rt,
    decodeOpt_int_rt, decodeOpt_nat_rt, decodeOpt_bool_rt, decodeOpt_value_rt,
    decodeDflt_strList_rt, decodeDflt_jsonList_rt, Option.some_bind,
    Option.map_some']
  rfl

/-- Unfolding of the serializer at a schema. -/
theorem toJson_mk (f : SchemaF Schema) :
    Schema.toJson (Schema.mk f) = Json.obj (serFields f) := by
  rw [Schema.toJson]

/-- Unfolding of the deserializer at a JSON object. -/
theorem fromJson_obj (fs : List (String × Json)) :
    Schema.fromJson (Json.obj fs) =
      ((decScalars fs).bind fun base =>
       (decOptOorField (mapGet fs "items")).bind fun items =>
       (decPropsField (mapGet fs "properties")).bind fun properties =>
       (decOptOorSobField (mapGet fs "additionalProperties")).bind fun additional_properties =>
       (decOorListField (mapGet fs "allOf")).bind fun all_of =>
       (decOorListField (mapGet fs "oneOf")).bind fun one_of =>
       (decOorListField (mapGet fs "anyOf")).map fun any_of =>
         Schema.mk { base with
           items := items
           properties := properties
           additional_properties := additional_properties
           all_of := all_of
           one_of := one_of
           any_of := any_of }) := by
  rw [Schema.fromJson]

/-- A serialized schema never exposes a `$ref` member. -/
theorem refOf_toJson (s : Schema) : refOf (Schema.toJson s) = none := by
  obtain ⟨f⟩ := s
  rw [toJson_mk]
  exact refOf_serFields f

/-- Round-trip for `ObjectOrReference<Schema>`, given the round-trip of
every smaller schema. -/
theorem oorSchema_rt (oor : ObjectOrReference Schema)
    (ih : ∀ s : Schema, sizeOf s < sizeOf oor →
      Schema.fromJson (Schema.toJson s) = some s) :
    oorSchemaFromJson (oorSchemaToJson oor) = some oor := by
  cases oor with
  | Ref p => simp [oorSchemaToJson, oorSchemaFromJson, refOf, mapGet]
  | Object s =>
    have hs : Schema.fromJson (Schema.toJson s) = some s := by
      apply ih
      simp only [ObjectOrReference.Object.sizeOf_spec]
      omega
    simp [oorSchemaToJson, oorSchemaFromJson, refOf_toJson, hs]

/-- Round-trip for `SchemaOrBool`, given the round-trip of every smaller
schema. -/
theorem sobG_rt (sb : SchemaOrBool)
    (ih : ∀ s : Schema, sizeOf s < sizeOf sb →
      Schema.fromJson (Schema.toJson s) = some s) :
    sobFromJson (sobToJson sb) = some sb := by
  cases sb with
  | Schema s =>
    have hs : Schema.fromJson (Schema.toJson s) = some s := by
      apply ih
      simp only [SchemaOrBoolG.Schema.sizeOf_spec]
      omega
    rw [sobToJson, sobFromJson.eq_def, hs]
    rfl
  | Bool b =>
    rw [sobToJson, sobFromJson.eq_def]
    simp [Schema.fromJson, Option.none_or]

/-- Round-trip for `ObjectOrReference<SchemaOrBool>`. -/
theorem oorSob_rt (oor : ObjectOrReference SchemaOrBool)
    (ih : ∀ s : Schema, sizeOf s < sizeOf oor →
      Schema.fromJson (Schema.toJson s) = some s) :
    oorSobFromJson (oorSobToJson oor) = some oor := by
  cases oor with
  | Ref p => simp [oorSobToJson, oorSobFromJson, refOf, mapGet]
  | Object sb =>
    have hsb : sobFromJson (sobToJson sb) = some sb := by
      apply sobG_rt
      intro s h
      apply ih
      simp only [ObjectOrReference.Object.sizeOf_spec]
      omega
    cases sb with
    | Schema s =>
      simp only [oorSobToJson, oorSobFromJson, sobToJson] at hsb ⊢
      simp [refOf_toJson, hsb]
    | Bool b =>
      simp only [oorSobToJson, oorSobFromJson, sobToJson] at hsb ⊢
      simp [refOf, hsb]

/-- Round-trip for the `properties` map. -/
theorem props_rt (l : List (String × ObjectOrReference Schema))
    (ih : ∀ s : Schema, sizeOf s < sizeOf l →
      Schema.fromJson (Schema.toJson s) = some s) :
    propsFromJson (propsToJson l) = some l := by
  induction l with
  | nil => simp [propsToJson, propsFromJson]
  | cons hd tl ihl =>
    obtain ⟨k, oor⟩ := hd
    have h1 : oorSchemaFromJson (oorSchemaToJson oor) = some oor := by
      apply oorSchema_rt
      intro s h
      apply ih
      simp only [List.cons.sizeOf_spec, Prod.mk.sizeOf_spec]
      omega
    have h2 : propsFromJson (propsToJson tl) = some tl := by
      apply ihl
      intro s h
      apply ih
      simp only [List.cons.sizeOf_spec] at *
      omega
    simp [propsToJson, propsFromJson, h1, h2]

/-- Round-trip for a `Vec<ObjectOrReference<Schema>>`. -/
theorem oorList_rt (l : List (ObjectOrReference Schema))
    (ih : ∀ s : Schema, sizeOf s < sizeOf l →
      Schema.fromJson (Schema.toJson s) = some s) :
    oorListFromJson (oorListToJson l) = some l := by
  induction l with
  | nil => simp [oorListToJson, oorListFromJson]
  | cons hd tl ihl =>
    have h1 : oorSchemaFromJson (oorSchemaToJson hd) = some hd := by
      apply oorSchema_rt
      intro s h
      apply ih
      simp only [List.cons.sizeOf_spec]
      omega
    have h2 : oorListFromJson (oorListToJson tl) = some tl := by
      apply ihl
      intro s h
      apply ih
      simp only [List.cons.sizeOf_spec] at *
      omega
    simp [oorListToJson, oorListFromJson, h1, h2]

/-- Round-trip of the serialized `items` field. -/
theorem decOptOorField_rt (o : Option (ObjectOrReference Schema))
    (ih : ∀ s : Schema, sizeOf s < sizeOf o →
      Schema.fromJson (Schema.toJson s) = some s) :
    decOptOorField (o.map oorSchemaToJson) = some o := by
  cases o with
  | none => simp [decOptOorField]
  | some oor =>
    have h : oorSchemaFromJson (oorSchemaToJson oor) = some oor := by
      apply oorSchema_rt
      intro s hlt
      apply ih
      simp only [Option.some.sizeOf_spec]
      omega
    simp [decOptOorField, h]

/-- Round-trip of the serialized `additionalProperties` field. -/
theorem decOptOorSobField_rt (o : Option (ObjectOrReference SchemaOrBool))
    (ih : ∀ s : Schema, sizeOf s < sizeOf o →
      Schema.fromJson (Schema.toJson s) = some s) :
    decOptOorSobField (o.map oorSobToJson) = some o := by
  cases o with
  | none => simp [decOptOorSobField]
  | some oor =>
    have h : oorSobFromJson (oorSobToJson oor) = some oor := by
      apply oorSob_rt
      intro s hlt
      apply ih
      simp only [Option.some.sizeOf_spec]
      omega
    simp [decOptOorSobField, h]

/-- Round-trip of the serialized `properties` field. -/
theorem decPropsField_rt (l : List (String × ObjectOrReference Schema))
    (ih : ∀ s : Schema, sizeOf s < sizeOf l →
      Schema.fromJson (Schema.toJson s) = some s) :
    decPropsField (if l.isEmpty then none
      else some (Json.obj (propsToJson l))) = some l := by
  cases l with
  | nil => simp [decPropsField]
  | cons hd tl =>
    have h := props_rt (hd :: tl) ih
    simp [decPropsField, h]

/-- Round-trip of a serialized `allOf`-style field. -/
theorem decOorListField_rt (l : List (ObjectOrReference Schema))
    (ih : ∀ s : Schema, sizeOf s < sizeOf l →
      Schema.fromJson (Schema.toJson s) = some s) :
    decOorListField (if l.isEmpty then none
      else some (Json.arr (oorListToJson l))) = some l := by
  cases l with
  | nil => simp [decOorListField]
  | cons hd tl =>
    have h := oorList_rt (hd :: tl) ih
    simp [decOorListField, h]

/-- Round-trip of a whole schema, by strong induction on its size. -/
theorem toJson_rt_aux (n : Nat) : ∀ s : Schema, sizeOf s ≤ n →
    Schema.fromJson (Schema.toJson s) = some s := by
  induction n using Nat.strong_induction_on with
  | _ n IH =>
    intro s hs
    obtain ⟨f⟩ := s
    have ihs : ∀ s₂ : Schema, sizeOf s₂ < sizeOf (Schema.mk f) →
        Schema.fromJson (Schema.toJson s₂) = some s₂ := by
      intro s₂ h₂
      exact IH (sizeOf s₂) (lt_of_lt_of_le h₂ hs) s₂ le_rfl
    have hIt : decOptOorField (f.items.map oorSchemaToJson) = some f.items := by
      apply decOptOorField_rt
      intro s₂ h₂
      apply ihs
      have := sizeOf_items_lt f
      simp only [Schema.mk.sizeOf_spec]
      omega
    have hPr : decPropsField (if f.properties.isEmpty then none
        else some (Json.obj (propsToJson f.properties))) = some f.properties := by
      apply decPropsField_rt
      intro s₂ h₂
      apply ihs
      have := sizeOf_properties_lt f
      simp only [Schema.mk.sizeOf_spec]
      omega
    have hAd : decOptOorSobField (f.additional_properties.map oorSobToJson) =
        some f.additional_properties := by
      apply decOptOorSobField_rt
      intro s₂ h₂
      apply ihs
      have := sizeOf_addProps_lt f
      simp only [Schema.mk.sizeOf_spec]
      omega
    have hAll : decOorListField (if f.all_of.isEmpty then none
        else some (Json.arr (oorListToJson f.all_of))) = some f.all_of := by
      apply decOorListField_rt
      intro s₂ h₂
      apply ihs
      have := sizeOf_all_of_lt f
      simp only [Schema.mk.sizeOf_spec]
      omega
    have hOne : decOorListField (if f.one_of.isEmpty then none
        else some (Json.arr (oorListToJson f.one_of))) = some f.one_of := by
      apply decOorListField_rt
      intro s₂ h₂
      apply ihs
      have := sizeOf_one_of_lt f
      simp only [Schema.mk.sizeOf_spec]
      omega
    have hAny : decOorListField (if f.any_of.isEmpty then none
        else some (Json.arr (oorListToJson f.any_of))) = some f.any_of := by
      apply decOorListField_rt
      intro s₂ h₂
      apply ihs
      have := sizeOf_any_of_lt f
      simp only [Schema.mk.sizeOf_spec]
      omega
    rw [toJson_mk, fromJson_obj, decScalars_serFields, mapGet_serFields_items,
      mapGet_serFields_properties, mapGet_serFields_addProps,
      mapGet_serFields_allOf, mapGet_serFields_oneOf, mapGet_serFields_anyOf]
    simp only [hIt, hPr, hAd, hAll, hOne, hAny, Option.some_bind, Option.map_some']
    rfl

/-- serde round-trip: deserializing the serialization of any schema
restores it exactly. -/
theorem toJson_fromJson (s : Schema) :
    Schema.fromJson (Schema.toJson s) = some s :=
  toJson_rt_aux (sizeOf s) s le_rfl

/-- The member list of a JSON object (empty for any other value). -/
def Json.objFields : Json → List (String × Json)
  | Json.obj fs => fs
  | _ => []

/-- Whether an `ObjectOrReference` is the inline variant. -/
def ObjectOrReference.isInline {T : Type} : ObjectOrReference T → Bool
  | .Ref _ => false
  | .Object _ => true

/-- Whether every object-or-reference field of a schema (`items`,
`properties`, `additional_properties`, `all_of`, `one_of`, `any_of`)
holds an inline value. -/
def inlineOnly (s : Schema) : Bool :=
  (s.f.items.all fun o => o.isInline) &&
  (s.f.properties.all fun kv => kv.2.isInline) &&
  (s.f.additional_properties.all fun o => o.isInline) &&
  (s.f.all_of.all fun o => o.isInline) &&
  (s.f.one_of.all fun o => o.isInline) &&
  (s.f.any_of.all fun o => o.isInline)

/-- Every optional or collection field that is absent (`None` / empty) is
omitted from the serialized object: its wire name is not a key. -/
def absentOmitted (s : Schema) : Prop :=
  (s.f.title = none →
    mapGet (Json.objFields (Schema.toJson s)) "title" = none) ∧
  (s.f.description = none →
    mapGet (Json.objFields (Schema.toJson s)) "description" = none) ∧
  (s.f.schema_type = none →
    mapGet (Json.objFields (Schema.toJson s)) "type" = none) ∧
  (s.f.required = [] →
    mapGet (Json.objFields (Schema.toJson s)) "required" = none) ∧
  (s.f.items = none →
    mapGet (Json.objFields (Schema.toJson s)) "items" = none) ∧
  (s.f.properties = [] →
    mapGet (Json.objFields (Schema.toJson s)) "properties" = none) ∧
  (s.f.additional_properties = none →
    mapGet (Json.objFields (Schema.toJson s)) "additionalProperties" = none) ∧
  (s.f.content_encoding = none →
    mapGet (Json.objFields (Schema.toJson s)) "contentEncoding" = none) ∧
  (s.f.content_media_type = none →
    mapGet (Json.objFields (Schema.toJson s)) "contentMediaType" = none) ∧
  (s.f.default = none →
    mapGet (Json.objFields (Schema.toJson s)) "default" = none) ∧
  (s.f.examples = [] →
    mapGet (Json.objFields (Schema.toJson s)) "examples" = none) ∧
  (s.f.format = none →
    mapGet (Json.objFields (Schema.toJson s)) "format" = none) ∧
  (s.f.enum_values = [] →
    mapGet (Json.objFields (Schema.toJson s)) "enum" = none) ∧
  (s.f.pattern = none →
    mapGet (Json.objFields (Schema.toJson s)) "pattern" = none) ∧
  (s.f.multiple_of = none →
    mapGet (Json.objFields (Schema.toJson s)) "multipleOf" = none) ∧
  (s.f.minimum = none →
    mapGet (Json.objFields (Schema.toJson s)) "minimum" = none) ∧
  (s.f.exclusive_maximum = none →
    mapGet (Json.objFields (Schema.toJson s)) "exclusiveMaximum" = none) ∧
  (s.f.maximum = none →
    mapGet (Json.objFields (Schema.toJson s)) "maximum" = none) ∧
  (s.f.exclusive_minimum = none →
    mapGet (Json.objFields (Schema.toJson s)) "exclusiveMinimum" = none) ∧
  (s.f.min_length = none →
    mapGet (Json.objFields (Schema.toJson s)) "minLength" = none) ∧
  (s.f.max_length = none →
    mapGet (Json.objFields (Schema.toJson s)) "maxLength" = none) ∧
  (s.f.min_items = none →
    mapGet (Json.objFields (Schema.toJson s)) "minItems" = none) ∧
  (s.f.max_items = none →
    mapGet (Json.objFields (Schema.toJson s)) "maxItems" = none) ∧
  (s.f.unique_items = none →
    mapGet (Json.objFields (Schema.toJson s)) "uniqueItems" = none) ∧
  (s.f.max_properties = none →
    mapGet (Json.objFields (Schema.toJson s)) "maxProperties" = none) ∧
  (s.f.min_properties = none →
    mapGet (Json.objFields (Schema.toJson s)) "minProperties" = none) ∧
  (s.f.read_only = none →
    mapGet (Json.objFields (Schema.toJson s)) "readOnly" = none) ∧
  (s.f.write_only = none →
    mapGet (Json.objFields (Schema.toJson s)) "writeOnly" = none) ∧
  (s.f.all_of = [] →
    mapGet (Json.objFields (Schema.toJson s)) "allOf" = none) ∧
  (s.f.one_of = [] →
    mapGet (Json.objFields (Schema.toJson s)) "oneOf" = none) ∧
  (s.f.any_of = [] →
    mapGet (Json.objFields (Schema.toJson s)) "anyOf" = none)

/-- The serializer omits every absent field. -/
theorem absentOmitted_holds (s : Schema) : absentOmitted s := by
  obtain ⟨f⟩ := s
  unfold absentOmitted
  simp only [Schema.f, toJson_mk, Json.objFields]
  refine ⟨?_, ?_, ?_, ?_, ?_, ?_, ?_, ?_, ?_, ?_, ?_, ?_, ?_, ?_, ?_, ?_, ?_, ?_, ?_, ?_, ?_, ?_, ?_, ?_, ?_, ?_, ?_, ?_, ?_, ?_, ?_⟩
  all_goals intro h
  all_goals
    simp [h, mapGet_serFields_title, mapGet_serFields_description,
      mapGet_serFields_schemaType, mapGet_serFields_required,
      mapGet_serFields_items, mapGet_serFields_properties,
      mapGet_serFields_addProps, mapGet_serFields_contentEncoding,
      mapGet_serFields_contentMediaType, mapGet_serFields_dflt,
      mapGet_serFields_examples, mapGet_serFields_format,
      mapGet_serFields_enumVals, mapGet_serFields_pat,
      mapGet_serFields_multipleOf, mapGet_serFields_minimum,
      mapGet_serFields_exclusiveMaximum, mapGet_serFields_maximum,
      mapGet_serFields_exclusiveMinimum, mapGet_serFields_minLength,
      mapGet_serFields_maxLength, mapGet_serFields_minItems,
      mapGet_serFields_maxItems, mapGet_serFields_uniqueItems,
      mapGet_serFields_maxProperties, mapGet_serFields_minProperties,
      mapGet_serFields_readOnly, mapGet_serFields_writeOnly,
      mapGet_serFields_allOf, mapGet_serFields_oneOf, mapGet_serFields_anyOf]

/-! ### Scenario document

`components.schemas.Pet = {type: object}` — the document of Scenarios
A, B and C of the specification. -/

/-- The inline schema `{type: object}`. -/
def petSchema : Schema := .mk { schema_type := some .Object }

/-- A document whose schemas collection maps "Pet" to `petSchema`. -/
def petSpec : Spec :=
  { components := some { schemas := [("Pet", .Object petSchema)] } }

/-- An inline-only schema with a required string property, used to witness
the serde round-trip. -/
def witnessSchema : Schema :=
  .mk { schema_type := some .Object
        required := ["name"]
        properties := [("name", .Object (.mk { schema_type := some .String }))] }

/-- Helper: `Schema::from_ref` on a reference that parses to kind Schema
whose name is mapped to an inline entry returns that entry. -/
theorem from_ref_schema_hit (fuel : Nat) (spec : Spec) (cs : Components)
    (path n : String) (s : Schema)
    (hparse : parseRef path = .ok ⟨.Schema, n⟩)
    (hcs : spec.components = some cs)
    (hget : mapGet cs.schemas n = some (.Object s)) :
    Schema.from_ref fuel spec path = .ok s := by
  unfold Schema.from_ref
  rw [hparse]
  simp [hcs, hget]

/-- C1: if the document's `components.schemas` maps name `n` to an inline
schema `s`, then `Schema::from_ref` on any reference string parsing to
kind Schema with name `n` returns `Ok s`; in particular resolving
`#/components/schemas/Pet` in the scenario document returns the schema
with `schema_type Object` and all other fields at their defaults. -/
theorem schema_from_ref_inline_target (fuel : Nat) (spec : Spec) (cs : Components)
    (path n : String) (s : Schema)
    (hparse : parseRef path = .ok ⟨.Schema, n⟩)
    (hcs : spec.components = some cs)
    (hget : mapGet cs.schemas n = some (.Object s)) :
    Schema.from_ref fuel spec path = .ok s ∧
    Schema.from_ref fuel petSpec "#/components/schemas/Pet" =
      .ok (Schema.mk { schema_type := some SchemaType.Object }) :=
  ⟨from_ref_schema_hit fuel spec cs path n s hparse hcs hget,
   from_ref_schema_hit fuel petSpec { schemas := [("Pet", .Object petSchema)] }
     "#/components/schemas/Pet" "Pet" petSchema rfl rfl rfl⟩

/-- Witness for C1 at the concrete Scenario A input. -/
theorem schema_from_ref_inline_target_witness :
    Schema.from_ref 0 petSpec "#/components/schemas/Pet" = .ok petSchema :=
  (schema_from_ref_inline_target 0 petSpec { schemas := [("Pet", .Object petSchema)] }
    "#/components/schemas/Pet" "Pet" petSchema rfl rfl rfl).1

/-- C2: on a reference string that parses to a kind other than Schema,
`Schema::from_ref` returns `MismatchedType(found, Schema)` for every
document (so never `Unresolvable`, and without any name lookup). -/
theorem schema_from_ref_mismatched_kind (fuel : Nat) (spec : Spec)
    (path n : String) (k : RefType)
    (hparse : parseRef path = .ok ⟨k, n⟩) (hk : k ≠ .Schema) :
    Schema.from_ref fuel spec path = .error (.MismatchedType k .Schema) := by
  unfold Schema.from_ref
  rw [hparse]
  cases k
  case Schema => exact absurd rfl hk
  all_goals rfl

/-- Witness for C2 at the concrete Scenario C input:
`#/components/examples/Pet` against the Schema contract. -/
theorem schema_from_ref_mismatched_kind_witness :
    Schema.from_ref 0 petSpec "#/components/examples/Pet" =
      .error (.MismatchedType .Example .Schema) :=
  schema_from_ref_mismatched_kind 0 petSpec "#/components/examples/Pet" "Pet"
    .Example rfl (by decide)

/-- C3: on a reference string that parses to kind Schema whose name is
absent from the document's schemas collection, `Schema::from_ref` returns
`Unresolvable(path)` carrying the original raw reference string (so never
`MismatchedType`). -/
theorem schema_from_ref_absent_name (fuel : Nat) (spec : Spec) (cs : Components)
    (path n : String)
    (hparse : parseRef path = .ok ⟨.Schema, n⟩)
    (hcs : spec.components = some cs)
    (hget : mapGet cs.schemas n = none) :
    Schema.from_ref fuel spec path = .error (.Unresolvable path) := by
  unfold Schema.from_ref
  rw [hparse]
  simp [hcs, hget]

/-- Witness for C3 at the concrete Scenario B input:
`#/components/schemas/Dog` is absent. -/
theorem schema_from_ref_absent_name_witness :
    Schema.from_ref 0 petSpec "#/components/schemas/Dog" =
      .error (.Unresolvable "#/components/schemas/Dog") :=
  schema_from_ref_absent_name 0 petSpec { schemas := [("Pet", .Object petSchema)] }
    "#/components/schemas/Dog" "Dog" rfl rfl rfl

/-- C4: `resolve` on an inline `ObjectOrReference` returns the inline
value unchanged for every document, and the result does not depend on
the document at all (no lookup is performed — in particular both hold
for a document entirely missing the referenced collection); stated for
both embedded instances of the contract (Schema and Example). -/
theorem resolve_inline_identity (fuel : Nat) (s : Schema) (e : Example) (d d₂ : Spec) :
    resolveSchema fuel (.Object s) d = .ok s ∧
    resolveSchema fuel (.Object s) d = resolveSchema fuel (.Object s) d₂ ∧
    resolveExample fuel (.Object e) d = some e ∧
    resolveExample fuel (.Object e) d = resolveExample fuel (.Object e) d₂ :=
  ⟨rfl, rfl, rfl, rfl⟩

/-- C5: `Example::from_ref` returns `None` whenever the loose-parsed kind
token differs from "examples", for every document — and equally returns
`None` when the kind token is "examples" but the name is absent, so the
two failures are indistinguishable in its result. -/
theorem example_from_ref_loose_kind (fuel : Nat) (spec : Spec) (path : String) :
    ((RefPath.from_str path).kind ≠ "examples" →
      Example.from_ref fuel spec path = none) ∧
    ((RefPath.from_str path).kind = "examples" →
      (spec.components.bind fun cs =>
        mapGet cs.examples (RefPath.from_str path).name) = none →
      Example.from_ref fuel spec path = none) := by
  constructor
  · intro h
    rw [Example.from_ref.eq_def]
    split
    · next heq => exact absurd heq h
    · rfl
  · intro h hnone
    rw [Example.from_ref.eq_def]
    split
    · rw [hnone]
      rfl
    · rfl

/-- Witness for C5: the Schema-kind path `#/components/schemas/Pet` is
not resolvable as an Example, and neither is an absent name of the right
kind. -/
theorem example_from_ref_loose_kind_witness :
    Example.from_ref 0 petSpec "#/components/schemas/Pet" = none ∧
    Example.from_ref 0 petSpec "#/components/examples/Pet" = none :=
  ⟨(example_from_ref_loose_kind 0 petSpec "#/components/schemas/Pet").1 (by decide),
   (example_from_ref_loose_kind 0 petSpec "#/components/examples/Pet").2 rfl rfl⟩

/-- C6: `Path::extend` returns a new path whose segments are the original
segments followed by the new one, keeping the separator; the receiver is
passed by shared reference in the source and is unchanged (immutability
is intrinsic to this embedding, where `extend` only reads `p`). -/
theorem path_extend_appends (p : Path) (s : String) :
    (p.extend s).parts = p.parts ++ [s] ∧ (p.extend s).separator = p.separator :=
  ⟨rfl, rfl⟩

/-- C7: `Path` equality compares the segment lists only; two paths with
identical segments but different separators are equal. -/
theorem path_eq_segments_only (p q : Path) :
    (p.eq q = true ↔ p.parts = q.parts) ∧
    (∀ parts s₁ s₂, Path.eq ⟨parts, s₁⟩ ⟨parts, s₂⟩ = true) := by
  refine ⟨?_, ?_⟩
  · simp [Path.eq]
  · intro parts s₁ s₂
    simp [Path.eq]

/-- C8: `Path::pop` returns `None` and leaves the path unchanged (still
the root) when it is empty, and removes and returns `Some` of the last
segment when it is not; consequently `push` then `pop` yields the pushed
segment and restores the original path. -/
theorem path_pop_push (p : Path) (s : String) :
    (p.parts = [] → p.pop = (none, p) ∧ p.is_root = true) ∧
    (∀ xs x, p.parts = xs ++ [x] → p.pop = (some x, { p with parts := xs })) ∧
    (p.push s).pop = (some s, p) := by
  refine ⟨?_, ?_, ?_⟩
  · intro h
    obtain ⟨parts, sep⟩ := p
    simp only at h
    subst h
    exact ⟨rfl, rfl⟩
  · intro xs x h
    simp [Path.pop, h, List.getLast?_concat, List.dropLast_concat]
  · simp [Path.push, Path.pop, List.getLast?_concat, List.dropLast_concat]

/-- Witness for C8: popping `["a"]` yields `"a"` and the empty path;
popping the empty path yields `None` and leaves it the root. -/
theorem path_pop_push_witness :
    (Path.mk ["a"] '/').pop = (some "a", Path.mk [] '/') ∧
    (Path.mk [] '/').pop = (none, Path.mk [] '/') ∧
    (Path.mk [] '/').is_root = true :=
  ⟨(path_pop_push ⟨["a"], '/'⟩ "b").2.1 [] "a" rfl,
   ((path_pop_push ⟨[], '/'⟩ "b").1 rfl).1,
   ((path_pop_push ⟨[], '/'⟩ "b").1 rfl).2⟩

/-- C10: when the document has no components section at all, a reference
parsing to kind Schema resolves to `Unresolvable(path)` with the raw
reference string — exactly as when only the named entry is missing — and
`Example::from_ref` likewise returns `None`. -/
theorem from_ref_missing_components (fuel : Nat) (spec : Spec) (path n : String)
    (hnone : spec.components = none) :
    (parseRef path = .ok ⟨.Schema, n⟩ →
      Schema.from_ref fuel spec path = .error (.Unresolvable path)) ∧
    Example.from_ref fuel spec path = none := by
  constructor
  · intro hparse
    unfold Schema.from_ref
    rw [hparse]
    simp [hnone]
  · rw [Example.from_ref.eq_def]
    split
    · simp [hnone]
    · rfl

/-- Witness for C10 at a concrete document without components. -/
theorem from_ref_missing_components_witness :
    Schema.from_ref 0 ⟨none⟩ "#/components/schemas/Pet" =
      .error (.Unresolvable "#/components/schemas/Pet") ∧
    Example.from_ref 0 ⟨none⟩ "#/components/schemas/Pet" = none :=
  ⟨(from_ref_missing_components 0 ⟨none⟩ "#/components/schemas/Pet" "Pet" rfl).1 rfl,
   (from_ref_missing_components 0 ⟨none⟩ "#/components/schemas/Pet" "Pet" rfl).2⟩

/-- C9: serializing a schema whose object-or-reference fields hold only
inline values and re-parsing the output restores a value equal to the
original, and every optional field that was absent (`None` or an empty
collection) is omitted from the serialized form — so it is still absent,
not present-but-empty, after the round-trip. -/
theorem schema_serde_roundtrip (s : Schema) (h : inlineOnly s = true) :
    Schema.fromJson (Schema.toJson s) = some s ∧ absentOmitted s :=
  ⟨toJson_fromJson s, absentOmitted_holds s⟩

/-- Witness for C9 at a concrete inline-only schema. -/
theorem schema_serde_roundtrip_witness :
    inlineOnly witnessSchema = true ∧
    (Schema.fromJson (Schema.toJson witnessSchema) = some witnessSchema ∧
      absentOmitted witnessSchema) :=
  ⟨by decide, schema_serde_roundtrip witnessSchema (by decide)⟩

end Oas3
